import Mathlib

/-!
Verification of the tracing subsystem (`src/tracer.cc`): policy store and
three-layer configuration merge (`TraceManager::UpdateTraceSetting`,
`UpdateTraceSettingInternal`, `GetTraceSetting`), the sampler
(`TraceSetting::SampleTrace`), batching and rotation
(`TraceSetting::WriteTrace`, `TraceFile::SaveTraces`), and the event/tensor
serialization callbacks (`TraceManager::TraceActivity`,
`TraceManager::TraceTensorActivity`).

The shallow embedding follows `src/tracer.cc` statement by statement.  The
header `tracer.h` is not among the sources; the few members whose bodies live
there (`TraceSetting::Valid`, the `NewSetting` struct) are modelled from the
spec and are marked as such in their doc comments.  The process-wide
`trace_files_` registry of weak pointers is not modelled; a setting carries
its file path directly (no claim depends on `TraceFile` sharing).
-/

namespace Tracer

/-- Wrap modulus of the 64-bit live counters (`uint64_t` in the source). -/
def U64 : Nat := 2 ^ 64

/-- Trace level bitmask (`TRITONSERVER_InferenceTraceLevel`); `0` is DISABLED. -/
abbrev TraceLevel := Nat

/-- The `TRITONSERVER_TRACE_LEVEL_DISABLED` level. -/
def LEVEL_DISABLED : TraceLevel := 0

/-- The `TRITONSERVER_TRACE_LEVEL_TIMESTAMPS` bit. -/
def LEVEL_TIMESTAMPS : TraceLevel := 1

/-- The `TRITONSERVER_TRACE_LEVEL_TENSORS` bit. -/
def LEVEL_TENSORS : TraceLevel := 2

/-- The two export modes (`InferenceTraceMode`). -/
inductive InferenceTraceMode where
  | triton
  | opentelemetry
deriving DecidableEq

/-- Backend-specific key/value settings (`TraceConfigMap`), opaque to the core. -/
abbrev TraceConfigMap := List (String × String)

/-- One `TraceSetting` object: the resolved configuration fields, the per-field
`*_specified_` flags, and the live counters (`sample_`, `count_` doubles as the
remaining budget, `created_`, `collected_`, `sample_in_stream_`) together with
the in-memory batch `trace_stream_`.  The file member is represented by its
path (`file_->FileName()`). -/
structure TraceSetting where
  level : TraceLevel
  rate : Nat
  count : Int
  logFrequency : Nat
  filepath : String
  mode : InferenceTraceMode
  configMap : TraceConfigMap
  levelSpecified : Bool
  rateSpecified : Bool
  countSpecified : Bool
  logFrequencySpecified : Bool
  filepathSpecified : Bool
  modeSpecified : Bool
  configMapSpecified : Bool
  sample : Nat
  created : Nat
  collected : Nat
  sampleInStream : Nat
  traceStream : String
deriving DecidableEq

/-- The `TraceSetting` constructor: stores the fields and flags and zeroes the
live counters (`sample_(0), created_(0), collected_(0), sample_in_stream_(0)`). -/
def mkTraceSetting (level : TraceLevel) (rate : Nat) (count : Int)
    (logFrequency : Nat) (filepath : String) (mode : InferenceTraceMode)
    (configMap : TraceConfigMap) (levelSpecified rateSpecified countSpecified
    logFrequencySpecified filepathSpecified modeSpecified
    configMapSpecified : Bool) : TraceSetting :=
  { level := level, rate := rate, count := count, logFrequency := logFrequency,
    filepath := filepath, mode := mode, configMap := configMap,
    levelSpecified := levelSpecified, rateSpecified := rateSpecified,
    countSpecified := countSpecified,
    logFrequencySpecified := logFrequencySpecified,
    filepathSpecified := filepathSpecified, modeSpecified := modeSpecified,
    configMapSpecified := configMapSpecified,
    sample := 0, created := 0, collected := 0, sampleInStream := 0,
    traceStream := "" }

/-- The `invalid_reason_` computed by the `TraceSetting` constructor. -/
def invalidReason (s : TraceSetting) : Option String :=
  if s.level = LEVEL_DISABLED then some ("tracing is disabled")
  else if s.rate = 0 then some ("sample rate must be non-zero")
  else if s.mode = InferenceTraceMode.triton ∧ s.filepath = "" then
    some ("trace file name is not given")
  else none

/-- Modelled from the spec: `TraceSetting::Valid()` is declared in `tracer.h`,
which is not among the sources.  Spec §3 defines validity: a policy is valid
iff `level != DISABLED`, `rate > 0`, and (local mode implies a non-empty file
path) — exactly `invalid_reason_.empty()` as established by the constructor in
`tracer.cc`. -/
def TraceSetting.Valid (s : TraceSetting) : Bool := (invalidReason s).isNone

/-- The `Reason()` accessor (the stored invalid reason, empty when valid). -/
def TraceSetting.Reason (s : TraceSetting) : String :=
  (invalidReason s).getD ("")

/-- Modelled from the spec: `struct NewSetting` is declared in `tracer.h`
(not among the sources).  Spec §4.1/§6 give every configuration field
absent/clear/set semantics; the update code reads exactly the members below
(a `clear_*_` flag and a nullable value per field). -/
structure NewSetting where
  level : Option TraceLevel
  clearLevel : Bool
  rate : Option Nat
  clearRate : Bool
  count : Option Int
  clearCount : Bool
  logFrequency : Option Nat
  clearLogFrequency : Bool
  filepath : Option String
  clearFilepath : Bool
  mode : Option InferenceTraceMode
  clearMode : Bool
  configMap : Option TraceConfigMap
  clearConfigMap : Bool
deriving DecidableEq

/-- The default-constructed `NewSetting` (no field set, no clear requested),
used when propagating a global update to fallback models. -/
def NewSetting.default : NewSetting :=
  { level := none, clearLevel := false, rate := none, clearRate := false,
    count := none, clearCount := false, logFrequency := none,
    clearLogFrequency := false, filepath := none, clearFilepath := false,
    mode := none, clearMode := false, configMap := none,
    clearConfigMap := false }

/-- State owned by `TraceManager`: the immutable default (`global_default_`),
the current global setting (`global_setting_`), the per-model map
(`model_settings_`) and the fallback-using set (`fallback_used_models_`). -/
structure TraceManagerState where
  globalDefault : TraceSetting
  globalSetting : TraceSetting
  modelSettings : List (String × TraceSetting)
  fallbackUsedModels : List String
deriving DecidableEq

/-- Association-list lookup (`model_settings_.find`). -/
def lookupSetting : List (String × TraceSetting) → String → Option TraceSetting
  | [], _ => none
  | (k, v) :: rest, name => if k = name then some v else lookupSetting rest name

/-- Association-list insert-or-replace (model init / model update swap). -/
def insertSetting : List (String × TraceSetting) → String → TraceSetting →
    List (String × TraceSetting)
  | [], name, v => [(name, v)]
  | (k, w) :: rest, name, v =>
    if k = name then (k, v) :: rest else (k, w) :: insertSetting rest name v

/-- Association-list erase (`model_settings_.erase`); keys are unique in the
map, so filtering out the key is the map operation. -/
def eraseSetting (l : List (String × TraceSetting)) (name : String) :
    List (String × TraceSetting) :=
  l.filter (fun p => p.1 ≠ name)

/-- Set membership for `fallback_used_models_`. -/
def setMember : List String → String → Bool
  | [], _ => false
  | k :: rest, name => if k = name then true else setMember rest name

/-- Set insertion (`fallback_used_models_.emplace`). -/
def setInsert (l : List String) (name : String) : List String :=
  if setMember l name then l else name :: l

/-- Set erasure (`fallback_used_models_.erase`). -/
def setErase (l : List String) (name : String) : List String :=
  l.filter (fun k => k ≠ name)

/-- The seven per-field `*_specified` flags computed by
`UpdateTraceSettingInternal`.  Each of the first six follows the commented
rule "if clear then it is not specified, otherwise it is specified if it is
being updated, or it was previously specified".  The `configMap` flag mirrors
the source verbatim: the condition tested is `new_setting.config_map_` itself
(the presence of a new value), not a clear flag. -/
structure MergedFlags where
  level : Bool
  rate : Bool
  count : Bool
  logFrequency : Bool
  filepath : Bool
  mode : Bool
  configMap : Bool
deriving DecidableEq

/-- Flag computation of `UpdateTraceSettingInternal` (`current_setting` may be
null for a newly-added model). -/
def mergeFlags (current : Option TraceSetting) (ns : NewSetting) : MergedFlags :=
  let curFlag : (TraceSetting → Bool) → Bool := fun f =>
    match current with
    | none => false
    | some c => f c
  { level := if ns.clearLevel then false else
      (curFlag (fun c => c.levelSpecified) || ns.level.isSome),
    rate := if ns.clearRate then false else
      (curFlag (fun c => c.rateSpecified) || ns.rate.isSome),
    count := if ns.clearCount then false else
      (curFlag (fun c => c.countSpecified) || ns.count.isSome),
    logFrequency := if ns.clearLogFrequency then false else
      (curFlag (fun c => c.logFrequencySpecified) || ns.logFrequency.isSome),
    filepath := if ns.clearFilepath then false else
      (curFlag (fun c => c.filepathSpecified) || ns.filepath.isSome),
    mode := if ns.clearMode then false else
      (curFlag (fun c => c.modeSpecified) || ns.mode.isSome),
    configMap := if ns.configMap.isSome then false else
      (curFlag (fun c => c.configMapSpecified) || ns.configMap.isSome) }

/-- Value selection for one field: if specified, take the update's value when
given, else the current setting's value; otherwise keep the fallback value
assigned by the first pass.  (When the flag is true and the update carries no
value, `current_setting` is non-null in the source; the `none, none` arm is
that unreachable combination and keeps the fallback value.) -/
def pickValue {α : Type} (specified : Bool) (newVal : Option α)
    (current : Option α) (fallbackVal : α) : α :=
  if specified then
    match newVal, current with
    | some v, _ => v
    | none, some c => c
    | none, none => fallbackVal
  else fallbackVal

/-- `all_specified` over the five sampling-relevant fields
(level/rate/count/log-frequency/filepath). -/
def allSamplingSpecified (f : MergedFlags) : Bool :=
  f.level && f.rate && f.count && f.logFrequency && f.filepath

/-- `none_specified` over the five sampling-relevant fields. -/
def noneSamplingSpecified (f : MergedFlags) : Bool :=
  !(f.level || f.rate || f.count || f.logFrequency || f.filepath)

/-- The "special case when updating model setting" block of
`UpdateTraceSettingInternal`: erase the model from the fallback set when all
five sampling-relevant fields are specified, erase its map entry (and return
early with success, flag `true`) when none is, otherwise record it in the
fallback set.  It runs before the merged setting is validated. -/
def specialCaseStep (st : TraceManagerState) (modelName : String)
    (flags : MergedFlags) : TraceManagerState × Bool :=
  if modelName ≠ "" then
    if allSamplingSpecified flags then
      let fb := setErase st.fallbackUsedModels modelName
      ({ st with fallbackUsedModels := fb }, false)
    else if noneSamplingSpecified flags then
      let ms := eraseSetting st.modelSettings modelName
      ({ st with modelSettings := ms }, true)
    else
      let fb := setInsert st.fallbackUsedModels modelName
      ({ st with fallbackUsedModels := fb }, false)
  else (st, false)

/-- The `current_setting` selected by `UpdateTraceSettingInternal` (null when
a model has no entry yet). -/
def currentSettingOf (st : TraceManagerState) (modelName : String) :
    Option TraceSetting :=
  if modelName ≠ "" then lookupSetting st.modelSettings modelName
  else some st.globalSetting

/-- The `fallback_setting` selected by `UpdateTraceSettingInternal` (global
for a model update, default for a global update). -/
def fallbackSettingOf (st : TraceManagerState) (modelName : String) :
    TraceSetting :=
  if modelName ≠ "" then st.globalSetting else st.globalDefault

/-- The specified-flag pass of `UpdateTraceSettingInternal` on the selected
current setting. -/
def mergeFlagsOf (st : TraceManagerState) (modelName : String)
    (ns : NewSetting) : MergedFlags :=
  mergeFlags (currentSettingOf st modelName) ns

/-- The merged `TraceSetting` built by `UpdateTraceSettingInternal`: first
pass fills every field from the fallback, the second pass overrides each
specified field with the update's value or the current value. -/
def mergedSettingOf (st : TraceManagerState) (modelName : String)
    (ns : NewSetting) : TraceSetting :=
  let current := currentSettingOf st modelName
  let fallback := fallbackSettingOf st modelName
  let flags := mergeFlagsOf st modelName ns
  mkTraceSetting
    (pickValue flags.level ns.level
      (current.map (fun c => c.level)) fallback.level)
    (pickValue flags.rate ns.rate
      (current.map (fun c => c.rate)) fallback.rate)
    (pickValue flags.count ns.count
      (current.map (fun c => c.count)) fallback.count)
    (pickValue flags.logFrequency ns.logFrequency
      (current.map (fun c => c.logFrequency)) fallback.logFrequency)
    (pickValue flags.filepath ns.filepath
      (current.map (fun c => c.filepath)) fallback.filepath)
    (pickValue flags.mode ns.mode
      (current.map (fun c => c.mode)) fallback.mode)
    (pickValue flags.configMap ns.configMap
      (current.map (fun c => c.configMap)) fallback.configMap)
    flags.level flags.rate flags.count flags.logFrequency flags.filepath
    flags.mode flags.configMap

/-- `TraceManager::UpdateTraceSettingInternal`.  Returns the state as left by
the call together with the error it returns, if any (state changes made before
an error return persist, as the members they touch do in the source).  The
validity check compares the merged `level` — stored unchanged in the merged
setting — against DISABLED, as the source does with its local `level`. -/
def updateTraceSettingInternal (st : TraceManagerState) (modelName : String)
    (ns : NewSetting) : TraceManagerState × Option String :=
  let flags := mergeFlagsOf st modelName ns
  let special : TraceManagerState × Bool := specialCaseStep st modelName flags
  if special.2 then (special.1, none)
  else
    let lts := mergedSettingOf st modelName ns
    if lts.Valid = false ∧ lts.level ≠ LEVEL_DISABLED then
      (special.1,
        some ("Attempting to set invalid trace setting :" ++ lts.Reason))
    else if modelName = "" then
      ({ special.1 with globalSetting := lts }, none)
    else
      let ms := insertSetting special.1.modelSettings modelName lts
      ({ special.1 with modelSettings := ms }, none)

/-- The propagation loop of `UpdateTraceSetting`: after a global update, rerun
the internal update with a default-constructed `NewSetting` for every model in
the (pre-copied) fallback set, stopping at the first error. -/
def propagateFallback : TraceManagerState → List String →
    TraceManagerState × Option String
  | st, [] => (st, none)
  | st, name :: rest =>
    let r := updateTraceSettingInternal st name NewSetting.default
    match r.2 with
    | some e => (r.1, some e)
    | none => propagateFallback r.1 rest

/-- `TraceManager::UpdateTraceSetting`. -/
def updateTraceSetting (st : TraceManagerState) (modelName : String)
    (ns : NewSetting) : TraceManagerState × Option String :=
  let r := updateTraceSettingInternal st modelName ns
  match r.2 with
  | some e => (r.1, some e)
  | none =>
    if modelName = "" then propagateFallback r.1 r.1.fallbackUsedModels
    else (r.1, none)

/-- `TraceManager::GetTraceSetting`: the resolved setting for a model (its own
entry if present, else the global setting). -/
def getTraceSetting (st : TraceManagerState) (modelName : String) :
    TraceSetting :=
  match lookupSetting st.modelSettings modelName with
  | some s => s
  | none => st.globalSetting

/-- The `TraceManager` constructor: both `global_default_` and
`global_setting_` start from the command-line values with every `specified`
flag false; no model entries, no fallback models. -/
def initManager (level : TraceLevel) (rate : Nat) (count : Int)
    (logFrequency : Nat) (filepath : String) (mode : InferenceTraceMode)
    (configMap : TraceConfigMap) : TraceManagerState :=
  let s := mkTraceSetting level rate count logFrequency filepath mode configMap
    false false false false false false false
  { globalDefault := s, globalSetting := s, modelSettings := [],
    fallbackUsedModels := [] }

/-- `TraceSetting::SampleTrace`.  `allocOk` models whether the external
`TRITONSERVER_InferenceTraceTensorNew` allocation succeeds.  Returns the
updated setting, the `create_trace` decision, and whether a (non-null) trace
object is returned to the caller. -/
def sampleTrace (s : TraceSetting) (allocOk : Bool) :
    TraceSetting × Bool × Bool :=
  if s.Valid = false then (s, false, false)
  else
    let sample' := (s.sample + 1) % U64
    let createTrace : Bool := sample' % s.rate == 0
    let s' :=
      if createTrace && decide (0 < s.count) then
        { s with
            sample := sample'
            count := s.count - 1
            created := (s.created + 1) % U64 }
      else { s with sample := sample' }
    (s', createTrace, createTrace && allocOk)

/-- Iterated sampling: `n` consecutive `SampleTrace()` calls (allocation
succeeding). -/
def sampleRun (s : TraceSetting) : Nat → TraceSetting
  | 0 => s
  | n + 1 => (sampleTrace (sampleRun s n) true).1

/-- Number of positive creation decisions within the first `n` calls. -/
def decisionCount (s : TraceSetting) : Nat → Nat
  | 0 => 0
  | n + 1 => decisionCount s n +
      (if (sampleTrace (sampleRun s n) true).2.1 then 1 else 0)

/-- Comma-joined concatenation, as produced by the `e < element_count - 1` /
`stream_count != streams.size()` separator patterns in the source. -/
def joinComma : List String → String
  | [] => ""
  | [x] => x
  | x :: y :: rest => x ++ "," ++ joinComma (y :: rest)

/-- `TraceSetting::WriteTrace` on the contents of one trace's stream map
(given as the list of its per-id stream strings, in iteration order).
Returns the updated setting and, when a flush fires, the swapped-out batch
paired with the `to_index_file` argument passed to `SaveTraces` (always
`true` at this call site in the source). -/
def writeTrace (s : TraceSetting) (streams : List String) :
    TraceSetting × Option (String × Bool) :=
  let ts0 := if s.sampleInStream ≠ 0 then s.traceStream ++ "," else s.traceStream
  let sis := (s.sampleInStream + 1) % U64
  let col := (s.collected + 1) % U64
  let ts1 := ts0 ++ joinComma streams
  if (s.count = 0 ∧ col = s.sample) ∨
      (s.logFrequency ≠ 0 ∧ s.logFrequency ≤ sis) then
    ({ s with sampleInStream := 0, collected := col, traceStream := "" },
      some (ts1, true))
  else
    ({ s with sampleInStream := sis, collected := col, traceStream := ts1 },
      none)

/-- The `~TraceSetting` destructor: if local mode and the stream holds
unflushed samples, save them (to an indexed file iff `log_frequency_ != 0`). -/
def traceSettingShutdown (s : TraceSetting) : Option (String × Bool) :=
  if s.mode = InferenceTraceMode.triton ∧ s.sampleInStream ≠ 0 then
    some (s.traceStream, s.logFrequency ≠ 0)
  else none

/-- State of one `TraceFile`: whether the continuous file has been written to
(`first_write_`), its accumulated content, the rotation counter `index_`, and
the contents of the indexed files written so far. -/
structure TraceFileState where
  firstWrite : Bool
  mainContent : String
  index : Nat
  indexFiles : List String
deriving DecidableEq

/-- A freshly-constructed `TraceFile` (nothing written). -/
def initTraceFile : TraceFileState :=
  { firstWrite := true, mainContent := "", index := 0, indexFiles := [] }

/-- `TraceFile::SaveTraces`: an index-file save writes `[` batch `]` to the
fresh file `file_name_.N` and bumps `index_`; a continuous save opens the main
file with `[` on first write and prefixes later batches with `,`. -/
def saveTraces (f : TraceFileState) (content : String) (toIndexFile : Bool) :
    TraceFileState :=
  if toIndexFile then
    let g := "[" ++ content ++ "]"
    { f with index := f.index + 1, indexFiles := f.indexFiles ++ [g] }
  else if f.firstWrite then
    { f with firstWrite := false, mainContent := "[" ++ content }
  else
    { f with mainContent := f.mainContent ++ "," ++ content }

/-- The `~TraceFile` destructor: the main file (when it was ever opened)
receives the trailing `]`; `none` when no main file was created. -/
def closeTraceFile (f : TraceFileState) : Option String :=
  if f.firstWrite then none else some (f.mainContent ++ "]")

/-- Trace activity kinds (`TRITONSERVER_InferenceTraceActivity`) used by the
callbacks. -/
inductive Activity where
  | requestStart
  | queueStart
  | computeStart
  | computeInputEnd
  | computeOutputStart
  | computeEnd
  | requestEnd
  | tensorQueueInput
  | tensorBackendInput
  | tensorBackendOutput
deriving DecidableEq

/-- Modelled from the spec: the engine collaborator supplies "a human-readable
name for every activity kind" (`TRITONSERVER_InferenceTraceActivityString`,
outside this repository). -/
def activityString : Activity → String
  | .requestStart => "REQUEST_START"
  | .queueStart => "QUEUE_START"
  | .computeStart => "COMPUTE_START"
  | .computeInputEnd => "COMPUTE_INPUT_END"
  | .computeOutputStart => "COMPUTE_OUTPUT_START"
  | .computeEnd => "COMPUTE_END"
  | .requestEnd => "REQUEST_END"
  | .tensorQueueInput => "TENSOR_QUEUE_INPUT"
  | .tensorBackendInput => "TENSOR_BACKEND_INPUT"
  | .tensorBackendOutput => "TENSOR_BACKEND_OUTPUT"

/-- Tensor datatypes (`TRITONSERVER_DataType`) as handled by the serializer
switch.  `FP32`/`FP64` are omitted: their branch renders C++ float text,
which this embedding does not model, and no claim concerns them. -/
inductive DataType where
  | tbool
  | uint8
  | uint16
  | uint32
  | uint64
  | int8
  | int16
  | int32
  | int64
  | fp16
  | bf16
  | bytes
  | invalid
deriving DecidableEq

/-- Modelled from the spec: the engine collaborator supplies "a human-readable
name for every datatype" (`TRITONSERVER_DataTypeString`). -/
def dataTypeString : DataType → String
  | .tbool => "BOOL"
  | .uint8 => "UINT8"
  | .uint16 => "UINT16"
  | .uint32 => "UINT32"
  | .uint64 => "UINT64"
  | .int8 => "INT8"
  | .int16 => "INT16"
  | .int32 => "INT32"
  | .int64 => "INT64"
  | .fp16 => "FP16"
  | .bf16 => "BF16"
  | .bytes => "BYTES"
  | .invalid => "INVALID"

/-- Little-endian read of `w` bytes at `offset` (the `reinterpret_cast` loads
on the little-endian target; bytes past the buffer read as 0). -/
def leDecode (buffer : List Nat) (offset : Nat) : Nat → Nat
  | 0 => 0
  | w + 1 => buffer.getD offset 0 + 256 * leDecode buffer (offset + 1) w

/-- Two's-complement reinterpretation of a `w`-byte little-endian load. -/
def twosComplement (w v : Nat) : Int :=
  if v < 2 ^ (8 * w - 1) then (v : Int) else (v : Int) - 2 ^ (8 * w)

/-- The BOOL branch: C++ streams a `bool` as `1`/`0`. -/
def renderBoolElems (buffer : List Nat) (ec : Nat) : String :=
  joinComma ((List.range ec).map
    (fun e => if buffer.getD e 0 = 0 then ("0") else ("1")))

/-- The UINT8/INT8 branches: C++ streams a `uint8_t`/`int8_t` as the raw
character of that byte. -/
def renderByteElems (buffer : List Nat) (ec : Nat) : String :=
  joinComma ((List.range ec).map
    (fun e => String.singleton (Char.ofNat (buffer.getD e 0))))

/-- The wider unsigned branches: decimal text of each element. -/
def renderUIntElems (buffer : List Nat) (width ec : Nat) : String :=
  joinComma ((List.range ec).map
    (fun e => toString (leDecode buffer (e * width) width)))

/-- The wider signed branches: decimal text of each two's-complement element. -/
def renderIntElems (buffer : List Nat) (width ec : Nat) : String :=
  joinComma ((List.range ec).map
    (fun e => toString (twosComplement width (leDecode buffer (e * width) width))))

/-- The BYTES branch from a given `offset` with `r` elements left to emit:
each element is a 4-byte little-endian length prefix followed by that many raw
bytes, emitted as `\"` content `\"`; a length prefix or payload reaching past
`byte_size` (the buffer length) aborts with the text emitted so far.  The
separating `,` after a non-final element is written before the next element is
checked, exactly as in the source loop. -/
def serializeBytesFrom (buffer : List Nat) : Nat → Nat → String × Bool
  | _, 0 => ("", true)
  | offset, r + 1 =>
    if buffer.length < offset + 4 then ("", false)
    else
      let len := leDecode buffer offset 4
      if buffer.length < offset + 4 + len then ("", false)
      else
        let str := String.mk
          (((buffer.drop (offset + 4)).take len).map (fun b => Char.ofNat b))
        let sep := if 0 < r then "," else ""
        let rest := serializeBytesFrom buffer (offset + 4 + len) r
        ("\\\"" ++ str ++ "\\\"" ++ sep ++ rest.1, rest.2)

/-- The serializer switch over datatypes: the rendered `data` text plus a flag
telling whether serialization ran to completion (`false` exactly on the early
`return`s of the INVALID and truncated-BYTES paths). -/
def serializeData (dt : DataType) (buffer : List Nat) (ec : Nat) :
    String × Bool :=
  match dt with
  | .tbool => (renderBoolElems buffer ec, true)
  | .uint8 => (renderByteElems buffer ec, true)
  | .uint16 => (renderUIntElems buffer 2 ec, true)
  | .uint32 => (renderUIntElems buffer 4 ec, true)
  | .uint64 => (renderUIntElems buffer 8 ec, true)
  | .int8 => (renderByteElems buffer ec, true)
  | .int16 => (renderIntElems buffer 2 ec, true)
  | .int32 => (renderIntElems buffer 4 ec, true)
  | .int64 => (renderIntElems buffer 8 ec, true)
  | .fp16 => ("", true)
  | .bf16 => ("", true)
  | .bytes => serializeBytesFrom buffer 0 ec
  | .invalid => ("", false)

/-- Per-trace stream buffers keyed by sub-trace id (`ts->streams_`), each
holding the accumulated serialized text. -/
abbrev Streams := List (Nat × String)

/-- Lookup in the stream map. -/
def streamsLookup : Streams → Nat → Option String
  | [], _ => none
  | (k, v) :: rest, id => if k = id then some v else streamsLookup rest id

/-- Insert-or-replace in the stream map. -/
def streamsInsert : Streams → Nat → String → Streams
  | [], id, v => [(id, v)]
  | (k, w) :: rest, id, v =>
    if k = id then (k, v) :: rest else (k, w) :: streamsInsert rest id v

/-- `element_count`: the product of the dims, accumulated in a `size_t`
(64-bit wrap; a negative `int64_t` dim wraps on conversion). -/
def elementCount (shape : List Int) : Nat :=
  shape.foldl (fun acc d => (acc * (d.emod (2 ^ 64)).toNat) % 2 ^ 64) 1

/-- The `shape` text: comma-joined dims. -/
def shapeString (shape : List Int) : String :=
  joinComma (shape.map (fun d => toString d))

/-- The fixed whitelist of activities accepted by `TraceTensorActivity`. -/
def supportedTensorActivity (a : Activity) : Bool :=
  a = Activity.tensorQueueInput ∨ a = Activity.tensorBackendInput ∨
    a = Activity.tensorBackendOutput

/-- One tensor-activity callback's arguments (host-memory buffer given as its
bytes; `byte_size` is the buffer length). -/
structure TensorEvent where
  id : Nat
  activity : Activity
  name : String
  datatype : DataType
  buffer : List Nat
  shape : List Int
deriving DecidableEq

/-- The part of the tensor fragment written before the datatype switch runs:
separator comma (for an existing stream), id, activity, tensor name, and the
opening of the `data` field. -/
def tensorFragmentHeader (id : Nat) (activity : Activity) (name : String) :
    String :=
  "\x7b\"id\":" ++ toString id ++ ",\"activity\":\"" ++
    activityString activity ++ "\"" ++ ",\"tensor\":\x7b" ++ "\"name\":\"" ++
    name ++ "\"" ++ ",\"data\":\""

/-- The part of the tensor fragment written after the data text: closing
quote, shape, dtype, and the two closing braces. -/
def tensorFragmentSuffix (shape : List Int) (dt : DataType) : String :=
  "\",\"shape\":\"" ++ shapeString shape ++ "\",\"dtype\":\"" ++
    dataTypeString dt ++ "\"\x7d" ++ "\x7d"

/-- `TraceManager::TraceTensorActivity` on the session's stream map
(host-memory path).  Unsupported activities and distributed mode leave the
buffers untouched (logged and dropped); in local mode the fragment header is
appended to the stream before the datatype switch runs, so an aborted
serialization (INVALID dtype, truncated BYTES payload) leaves the header and
any partial data text in the stream. -/
def traceTensorActivity (streams : Streams) (ev : TensorEvent)
    (mode : InferenceTraceMode) : Streams :=
  if supportedTensorActivity ev.activity = false then streams
  else if mode = InferenceTraceMode.opentelemetry then streams
  else
    let base :=
      match streamsLookup streams ev.id with
      | none => ""
      | some s => s ++ ","
    let dataR := serializeData ev.datatype ev.buffer (elementCount ev.shape)
    let header := base ++ tensorFragmentHeader ev.id ev.activity ev.name
    if dataR.2 = false then streamsInsert streams ev.id (header ++ dataR.1)
    else
      streamsInsert streams ev.id
        (header ++ dataR.1 ++ tensorFragmentSuffix ev.shape ev.datatype)

/-- One timestamp-activity callback's arguments (the trace-handle accessor
values read for `REQUEST_START`). -/
structure ActivityEvent where
  id : Nat
  activity : Activity
  timestampNs : Nat
  modelName : String
  modelVersion : Int
  parentId : Nat
  requestId : String
deriving DecidableEq

/-- The timestamps fragment written for every activity. -/
def timestampFragment (id : Nat) (name : String) (ns : Nat) : String :=
  "\x7b\"id\":" ++ toString id ++ ",\"timestamps\":[\x7b\"name\":\"" ++
    name ++ "\",\"ns\":" ++ toString ns ++ "\x7d]\x7d"

/-- The metadata object (plus its trailing comma) written for
`REQUEST_START` only: ids, model name/version, optional request and parent
ids. -/
def requestStartMeta (ev : ActivityEvent) : String :=
  "\x7b\"id\":" ++ toString ev.id ++ ",\"model_name\":\"" ++ ev.modelName ++
    "\",\"model_version\":" ++ toString ev.modelVersion ++
    (if ev.requestId ≠ "" then ",\"request_id\":\"" ++ ev.requestId ++ "\""
      else "") ++
    (if ev.parentId ≠ 0 then ",\"parent_id\":" ++ toString ev.parentId
      else "") ++
    "\x7d,"

/-- `TraceManager::TraceActivity` on the session's stream map (local mode
appends to the per-id stream; distributed mode emits span events and leaves
the buffers untouched). -/
def traceActivity (streams : Streams) (ev : ActivityEvent)
    (mode : InferenceTraceMode) : Streams :=
  if mode = InferenceTraceMode.triton then
    let base :=
      match streamsLookup streams ev.id with
      | none => ""
      | some s => s ++ ","
    let meta :=
      if ev.activity = Activity.requestStart then requestStartMeta ev else ""
    let frag := timestampFragment ev.id (activityString ev.activity)
      ev.timestampNs
    streamsInsert streams ev.id (base ++ meta ++ frag)
  else streams

/-- Scanner state for the bracket-balance check of an output file: whether the
scan sits inside a JSON string, whether the previous in-string character was
an unconsumed backslash, the curly and square bracket depths, and a latch that
goes false if a closing bracket ever appears at depth zero. -/
structure BalState where
  inStr : Bool
  esc : Bool
  curly : Int
  square : Int
  ok : Bool
deriving DecidableEq

/-- Initial scanner state. -/
def balInit : BalState :=
  { inStr := false, esc := false, curly := 0, square := 0, ok := true }

/-- The backslash character. -/
def backslashChar : Char := Char.ofNat 92

/-- The double-quote character. -/
def quoteChar : Char := Char.ofNat 34

/-- The opening curly brace. -/
def lbraceChar : Char := Char.ofNat 123

/-- The closing curly brace. -/
def rbraceChar : Char := Char.ofNat 125

/-- The opening square bracket. -/
def lbrackChar : Char := Char.ofNat 91

/-- The closing square bracket. -/
def rbrackChar : Char := Char.ofNat 93

/-- One scanner step. -/
def balStep (st : BalState) (c : Char) : BalState :=
  if st.inStr then
    if st.esc then { st with esc := false }
    else if c = backslashChar then { st with esc := true }
    else if c = quoteChar then { st with inStr := false }
    else st
  else if c = quoteChar then { st with inStr := true }
  else if c = lbraceChar then { st with curly := st.curly + 1 }
  else if c = rbraceChar then
    { st with curly := st.curly - 1, ok := st.ok && decide (0 < st.curly) }
  else if c = lbrackChar then { st with square := st.square + 1 }
  else if c = rbrackChar then
    { st with square := st.square - 1, ok := st.ok && decide (0 < st.square) }
  else st

/-- Run the scanner over a string. -/
def balRun (st : BalState) (s : String) : BalState := s.data.foldl balStep st

/-- A string has balanced brackets when a full scan returns to the initial
state: no unterminated JSON string and both depths back to zero with no
underflow. -/
def balancedJson (s : String) : Bool := balRun balInit s = balInit

/-- Scanner run over a character list (the underlying form of `balRun`). -/
def balList (st : BalState) (l : List Char) : BalState := l.foldl balStep st

/-- Square-depth shift by one, the state reached after reading `[`. -/
def shiftSquare (st : BalState) : BalState := { st with square := st.square + 1 }

/-- A model-specific setting leaves at least one sampling-relevant field
(level/rate/count/log-frequency/filepath) unspecified. -/
def hasUnspecifiedSamplingField (s : TraceSetting) : Bool :=
  !(s.levelSpecified && s.rateSpecified && s.countSpecified &&
    s.logFrequencySpecified && s.filepathSpecified)

/-- The Policy Store invariant claimed by the spec: every model in the
fallback set has a model-settings entry with at least one unspecified
sampling-relevant field. -/
def storeInvariant (st : TraceManagerState) : Prop :=
  ∀ m, setMember st.fallbackUsedModels m = true →
    ∃ s, lookupSetting st.modelSettings m = some s ∧
      hasUnspecifiedSamplingField s = true

/-- The weakened Policy Store invariant that the code maintains: a model in
the fallback set either has no model-settings entry at all or has one with at
least one unspecified sampling-relevant field. -/
def storeInvariantWeak (st : TraceManagerState) : Prop :=
  ∀ m s, setMember st.fallbackUsedModels m = true →
    lookupSetting st.modelSettings m = some s →
      hasUnspecifiedSamplingField s = true

/-- A sequence of `UpdateTraceSetting` calls; the flag reports whether every
call succeeded (application stops at the first error). -/
def applyUpdates (st : TraceManagerState) :
    List (String × NewSetting) → TraceManagerState × Bool
  | [] => (st, true)
  | (n, ns) :: rest =>
    let r := updateTraceSetting st n ns
    match r.2 with
    | some _ => (r.1, false)
    | none => applyUpdates r.1 rest

/-- Invariant of a `TraceFile` during a run: all written index files are
balanced, and the main file is either untouched or `[` followed by balanced
content. -/
def fileInv (f : TraceFileState) : Prop :=
  (∀ g ∈ f.indexFiles, balancedJson g = true) ∧
  (f.firstWrite = true → f.mainContent = "") ∧
  (f.firstWrite = false →
    ∃ B, f.mainContent = "[" ++ B ∧ balancedJson B = true)

/-- The stream content left behind by a tensor-activity callback whose
serialization aborts (INVALID dtype or truncated BYTES payload): the optional
separator, the fragment header, and whatever data text was emitted before the
abort. -/
def abortedTensorFragment (streams : Streams) (ev : TensorEvent) : String :=
  (match streamsLookup streams ev.id with
   | none => ""
   | some s => s ++ ",") ++
    tensorFragmentHeader ev.id ev.activity ev.name ++
    (serializeData ev.datatype ev.buffer (elementCount ev.shape)).1

/-- A manager started with a timestamps-level, rate-1, unlimited, local-mode
global configuration. -/
def demoManager : TraceManagerState :=
  initManager LEVEL_TIMESTAMPS 1 0 0 "trace.json" InferenceTraceMode.triton []

/-- An update that only sets the backend-options map. -/
def setConfigMapUpdate : NewSetting :=
  { NewSetting.default with configMap := some [("url", "localhost:4318")] }

/-- An update that only sets `rate = 0`. -/
def setRateZero : NewSetting := { NewSetting.default with rate := some 0 }

/-- An update that only sets `rate = 5`. -/
def setRateFive : NewSetting := { NewSetting.default with rate := some 5 }

/-- An update that only requests `clear` for the rate field. -/
def clearRateUpdate : NewSetting := { NewSetting.default with clearRate := true }

/-- A valid unlimited-count rate-3 local setting. -/
def unlimitedRateThree : TraceSetting :=
  mkTraceSetting LEVEL_TIMESTAMPS 3 0 0 "trace.json" InferenceTraceMode.triton
    [] false false false false false false false

/-- A valid unlimited-count rate-1 local setting with `log_frequency = 0`. -/
def unlimitedRateOne : TraceSetting :=
  mkTraceSetting LEVEL_TIMESTAMPS 1 0 0 "trace.json" InferenceTraceMode.triton
    [] false false false false false false false

/-- A valid rate-1 local setting with a trace budget of one. -/
def budgetOne : TraceSetting :=
  mkTraceSetting LEVEL_TIMESTAMPS 1 1 0 "trace.json" InferenceTraceMode.triton
    [] false false false false false false false

/-- A valid rate-2 local setting with a trace budget of two. -/
def budgetTwo : TraceSetting :=
  mkTraceSetting LEVEL_TIMESTAMPS 2 2 0 "trace.json" InferenceTraceMode.triton
    [] false false false false false false false

/-- A valid local setting with `log_frequency = 1` and a finite budget. -/
def logFreqOneSetting : TraceSetting :=
  mkTraceSetting LEVEL_TIMESTAMPS 1 5 1 "trace.json" InferenceTraceMode.triton
    [] false false false false false false false

/-- A valid local setting with `log_frequency = 2` and a finite budget. -/
def logFreqTwoSetting : TraceSetting :=
  mkTraceSetting LEVEL_TIMESTAMPS 1 5 2 "trace.json" InferenceTraceMode.triton
    [] false false false false false false false

/-- A tensor event with the explicitly invalid datatype. -/
def invalidDtypeEvent : TensorEvent :=
  { id := 0, activity := Activity.tensorQueueInput, name := "t",
    datatype := DataType.invalid, buffer := [], shape := [] }

/-- A BYTES tensor event whose payload is truncated: `byte_size = 2` is too
short for the 4-byte length prefix of its single element. -/
def truncatedTensorEvent : TensorEvent :=
  { id := 0, activity := Activity.tensorQueueInput, name := "t",
    datatype := DataType.bytes, buffer := [1, 0], shape := [1] }

/-- The session buffers after the truncated BYTES event hits an empty
session. -/
def corruptedStreams : Streams :=
  traceTensorActivity [] truncatedTensorEvent InferenceTraceMode.triton

/-- A queue-start activity event for sub-trace id 0. -/
def demoActivityEvent : ActivityEvent :=
  { id := 0, activity := Activity.queueStart, timestampNs := 42,
    modelName := "m", modelVersion := 1, parentId := 0, requestId := "" }

/-- The batch flushed by `WriteTrace` when the trace holding the corrupted
stream is collected under `log_frequency = 1`. -/
def corruptedBatch : String :=
  ((writeTrace logFreqOneSetting
    (corruptedStreams.map (fun p => p.2))).2.getD ("", true)).1

/-- The file state after `SaveTraces` writes that batch to an indexed file. -/
def corruptedFile : TraceFileState := saveTraces initTraceFile corruptedBatch true

theorem lookupSetting_insert_self (l : List (String × TraceSetting))
    (k : String) (v : TraceSetting) :
    lookupSetting (insertSetting l k v) k = some v := by
  induction l with
  | nil => simp [insertSetting, lookupSetting]
  | cons p rest ih =>
    by_cases h : p.1 = k
    · simp [insertSetting, lookupSetting, h]
    · simp [insertSetting, lookupSetting, h, ih]

theorem lookupSetting_insert_ne (l : List (String × TraceSetting))
    (k m : String) (v : TraceSetting) (h : m ≠ k) :
    lookupSetting (insertSetting l k v) m = lookupSetting l m := by
  induction l with
  | nil => simp [insertSetting, lookupSetting, Ne.symm h]
  | cons p rest ih =>
    by_cases hk : p.1 = k
    · simp [insertSetting, lookupSetting, hk, Ne.symm h]
    · by_cases hm : p.1 = m
      · simp [insertSetting, lookupSetting, hk, hm, h]
      · simp [insertSetting, lookupSetting, hk, hm, ih]

theorem lookupSetting_erase_self (l : List (String × TraceSetting))
    (k : String) : lookupSetting (eraseSetting l k) k = none := by
  induction l with
  | nil => rfl
  | cons p rest ih =>
    by_cases h : p.1 = k
    · simpa [eraseSetting, List.filter_cons, h] using ih
    · simpa [eraseSetting, List.filter_cons, h, lookupSetting] using ih

theorem lookupSetting_erase_ne (l : List (String × TraceSetting))
    (k m : String) (h : m ≠ k) :
    lookupSetting (eraseSetting l k) m = lookupSetting l m := by
  induction l with
  | nil => rfl
  | cons p rest ih =>
    by_cases hk : p.1 = k
    · simpa [eraseSetting, List.filter_cons, hk, lookupSetting, Ne.symm h]
        using ih
    · by_cases hm : p.1 = m
      · simp [eraseSetting, List.filter_cons, hk, lookupSetting, hm, h]
      · simpa [eraseSetting, List.filter_cons, hk, lookupSetting, hm] using ih

theorem setMember_insert (l : List String) (k m : String) :
    setMember (setInsert l k) m = true ↔ (setMember l m = true ∨ m = k) := by
  unfold setInsert
  by_cases h : setMember l k = true
  · rw [if_pos h]
    constructor
    · intro hm
      exact Or.inl hm
    · intro hm
      rcases hm with hm | hm
      · exact hm
      · subst hm
        exact h
  · rw [if_neg h]
    by_cases hk : k = m
    · subst hk
      simp [setMember]
    · simp [setMember, hk, Ne.symm hk]

theorem setMember_erase (l : List String) (k m : String) :
    setMember (setErase l k) m = true ↔ (setMember l m = true ∧ m ≠ k) := by
  induction l with
  | nil => simp [setErase, setMember]
  | cons p rest ih =>
    by_cases hk : p = k
    · subst hk
      by_cases hm : p = m
      · subst hm
        simp only [setErase, List.filter_cons, setMember, ih]
        have hx : setMember (setErase rest p) p = false := by
          rcases Bool.eq_false_or_eq_true (setMember (setErase rest p) p) with
            hb | hb
          · exact absurd (ih.1 hb).2 (by simp)
          · exact hb
        simp [setErase, List.filter_cons, setMember]
        simpa [setErase] using hx
      · simp only [setErase, List.filter_cons] at ih ⊢
        simpa [setMember, hm] using ih
    · by_cases hm : p = m
      · subst hm
        simp [setErase, List.filter_cons, hk, setMember, Ne.symm hk]
      · simp only [setErase, List.filter_cons] at ih ⊢
        simpa [setMember, hk, hm] using ih

theorem streamsLookup_insert_self (l : Streams) (k : Nat) (v : String) :
    streamsLookup (streamsInsert l k v) k = some v := by
  induction l with
  | nil => simp [streamsInsert, streamsLookup]
  | cons p rest ih =>
    by_cases h : p.1 = k
    · simp [streamsInsert, streamsLookup, h]
    · simp [streamsInsert, streamsLookup, h, ih]

theorem streamsInsert_collapse (l : Streams) (k : Nat) (a b : String) :
    streamsInsert (streamsInsert l k a) k b = streamsInsert l k b := by
  induction l with
  | nil => simp [streamsInsert]
  | cons p rest ih =>
    by_cases h : p.1 = k
    · simp [streamsInsert, h]
    · simp [streamsInsert, h, ih]

/-- Claim C1: the per-field merge is claimed to set each `specified` flag to
false on `clear` and otherwise to (previously specified ∨ explicitly set),
taking the update's value when given — for all seven fields including
`backendOptions`.  The source instead tests `new_setting.config_map_` (the
presence of a new value) where the other six fields test their clear flag, so
an update that explicitly sets the backend-options map produces
`config_map_specified = false` and keeps the fallback's map, discarding the
update's value; this contradicts the source's own comment stating the claimed
rule.  This theorem evaluates the embedded update at that failing input: a
global update that only sets the map succeeds, yet leaves the flag false and
the map at the fallback (empty) value. -/
theorem c1_configmap_update_ignores_value :
    setConfigMapUpdate.configMap = some [("url", "localhost:4318")] ∧
    setConfigMapUpdate.clearConfigMap = false ∧
    (updateTraceSetting demoManager ("") setConfigMapUpdate).2 = none ∧
    (updateTraceSetting demoManager ("")
      setConfigMapUpdate).1.globalSetting.configMapSpecified = false ∧
    (updateTraceSetting demoManager ("")
      setConfigMapUpdate).1.globalSetting.configMap = [] := by
  decide

theorem valid_update_sample (s : TraceSetting) (n : Nat) :
    TraceSetting.Valid { s with sample := n } = s.Valid := rfl

theorem valid_update_counters (s : TraceSetting) (n cr : Nat) (c : Int) :
    TraceSetting.Valid { s with sample := n, count := c, created := cr }
      = s.Valid := rfl

theorem sampleTrace_decision (s : TraceSetting) (hValid : s.Valid = true)
    (ok : Bool) :
    (sampleTrace s ok).2.1 = (((s.sample + 1) % U64) % s.rate == 0) := by
  simp [sampleTrace, hValid]

theorem sampleTrace_returned (s : TraceSetting) (hValid : s.Valid = true)
    (ok : Bool) :
    (sampleTrace s ok).2.2 = ((((s.sample + 1) % U64) % s.rate == 0) && ok) := by
  simp [sampleTrace, hValid]

theorem sampleTrace_state (s : TraceSetting) (hValid : s.Valid = true)
    (ok : Bool) :
    (sampleTrace s ok).1 =
      if (((s.sample + 1) % U64) % s.rate == 0) && decide (0 < s.count) then
        { s with sample := (s.sample + 1) % U64, count := s.count - 1, created := (s.created + 1) % U64 }
      else { s with sample := (s.sample + 1) % U64 } := by
  simp [sampleTrace, hValid]

theorem c2_run_state (s : TraceSetting) (hValid : s.Valid = true)
    (hcount : s.count = 0) (hsample : s.sample = 0) :
    ∀ n, n < U64 → sampleRun s n = { s with sample := n } := by
  intro n
  induction n with
  | zero =>
    intro _
    show s = { s with sample := 0 }
    rw [← hsample]
  | succ n ih =>
    intro h
    have hn : n < U64 := Nat.lt_of_succ_lt h
    show (sampleTrace (sampleRun s n) true).1 = _
    rw [ih hn]
    rw [sampleTrace_state { s with sample := n }
      (by rw [valid_update_sample]; exact hValid) true]
    have hc : ({ s with sample := n } : TraceSetting).count = 0 := hcount
    rw [hc]
    simp only [decide_eq_true_eq, lt_irrefl, decide_False, Bool.and_false,
      if_false, Bool.false_eq_true]
    have hm : (n + 1) % U64 = n + 1 := Nat.mod_eq_of_lt h
    rw [hm]

theorem c2_decision_at (s : TraceSetting) (hValid : s.Valid = true)
    (hcount : s.count = 0) (hsample : s.sample = 0) (k : Nat) (h1 : 1 ≤ k)
    (hk : k < U64) :
    ((sampleTrace (sampleRun s (k - 1)) true).2.1 = true ↔ s.rate ∣ k) := by
  have hk1 : k - 1 < U64 := by omega
  rw [c2_run_state s hValid hcount hsample (k - 1) hk1]
  rw [sampleTrace_decision { s with sample := k - 1 }
    (by rw [valid_update_sample]; exact hValid) true]
  have hs : ({ s with sample := k - 1 } : TraceSetting).sample = k - 1 := rfl
  rw [hs]
  have h2 : k - 1 + 1 = k := by omega
  rw [h2, Nat.mod_eq_of_lt hk]
  rw [beq_iff_eq]
  exact Nat.dvd_iff_mod_eq_zero.symm

theorem c2_count_aux (s : TraceSetting) (hValid : s.Valid = true)
    (hcount : s.count = 0) (hsample : s.sample = 0) :
    ∀ n, n < U64 → decisionCount s n = n / s.rate := by
  intro n
  induction n with
  | zero =>
    intro _
    exact (Nat.zero_div _).symm
  | succ n ih =>
    intro h
    have hn : n < U64 := Nat.lt_of_succ_lt h
    show decisionCount s n +
      (if (sampleTrace (sampleRun s n) true).2.1 then 1 else 0) = _
    rw [ih hn]
    have hd := c2_decision_at s hValid hcount hsample (n + 1) (by omega) h
    have h2 : n + 1 - 1 = n := rfl
    rw [h2] at hd
    rw [Nat.succ_div]
    by_cases hdvd : s.rate ∣ (n + 1)
    · rw [if_pos (hd.2 hdvd), if_pos hdvd]
    · have : ¬ (sampleTrace (sampleRun s n) true).2.1 = true := by
        intro hx
        exact hdvd (hd.1 hx)
      rw [if_neg (by simpa using this), if_neg hdvd]

/-- Claim C2: for a valid policy with unlimited count (`count = 0`), a
creation decision is made exactly on the Rth, 2Rth, 3Rth, ... sampling
opportunities, and `N` opportunities yield exactly `⌊N / R⌋` creation
decisions.  Stated for `N` below the 64-bit wrap of the `sample_` counter. -/
theorem c2_rate_sampling_multiples (s : TraceSetting) (N : Nat)
    (hValid : s.Valid = true) (hcount : s.count = 0) (hsample : s.sample = 0)
    (hN : N < U64) :
    (∀ k, 1 ≤ k → k ≤ N →
      ((sampleTrace (sampleRun s (k - 1)) true).2.1 = true ↔ s.rate ∣ k)) ∧
    decisionCount s N = N / s.rate := by
  constructor
  · intro k h1 hk
    exact c2_decision_at s hValid hcount hsample k h1 (lt_of_le_of_lt hk hN)
  · exact c2_count_aux s hValid hcount hsample N hN

/-- Claim C2, witness: the rate-3 unlimited policy decides to create exactly
on the 3rd of its first 7 opportunities, and 7 opportunities yield
`⌊7 / 3⌋ = 2` creation decisions. -/
theorem c2_rate_sampling_multiples_witness :
    ((sampleTrace (sampleRun unlimitedRateThree 2) true).2.1 = true ↔
      unlimitedRateThree.rate ∣ 3) ∧
    decisionCount unlimitedRateThree 7 = 7 / unlimitedRateThree.rate := by
  have h := c2_rate_sampling_multiples unlimitedRateThree 7 (by decide)
    (by decide) (by decide) (by decide)
  exact ⟨h.1 3 (by decide) (by decide), h.2⟩

/-- Claim C3, counterexample: with `count = 1` and `rate = 1` the budget is
exhausted by the first call, yet the second `SampleTrace()` call still makes a
positive creation decision and returns a trace object — creation does not
permanently stop after the Cth trace. -/
theorem c3_creation_continues_after_budget :
    budgetOne.count = 1 ∧
    (sampleTrace budgetOne true).2.2 = true ∧
    (sampleTrace budgetOne true).1.count = 0 ∧
    (sampleTrace (sampleTrace budgetOne true).1 true).2.2 = true := by
  decide

theorem sampleTrace_valid_preserved (t : TraceSetting) (hV : t.Valid = true)
    (ok : Bool) : (sampleTrace t ok).1.Valid = true := by
  rw [sampleTrace_state t hV ok]
  split
  · rw [valid_update_counters]
    exact hV
  · rw [valid_update_sample]
    exact hV

theorem sampleTrace_rate (t : TraceSetting) (hV : t.Valid = true) (ok : Bool) :
    (sampleTrace t ok).1.rate = t.rate := by
  rw [sampleTrace_state t hV ok]
  split <;> rfl

theorem sampleTrace_sample (t : TraceSetting) (hV : t.Valid = true)
    (ok : Bool) : (sampleTrace t ok).1.sample = (t.sample + 1) % U64 := by
  rw [sampleTrace_state t hV ok]
  split <;> rfl

theorem sampleTrace_count (t : TraceSetting) (hV : t.Valid = true)
    (ok : Bool) :
    (sampleTrace t ok).1.count =
      if (((t.sample + 1) % U64) % t.rate == 0) && decide (0 < t.count) then
        t.count - 1
      else t.count := by
  rw [sampleTrace_state t hV ok]
  split <;> rfl

theorem sampleTrace_created (t : TraceSetting) (hV : t.Valid = true)
    (ok : Bool) :
    (sampleTrace t ok).1.created =
      if (((t.sample + 1) % U64) % t.rate == 0) && decide (0 < t.count) then
        (t.created + 1) % U64
      else t.created := by
  rw [sampleTrace_state t hV ok]
  split <;> rfl

theorem c3_run_state (s : TraceSetting) (C : Nat) (hValid : s.Valid = true)
    (hcount : s.count = (C : Int)) (hCU : C < U64) (hsample : s.sample = 0)
    (hcreated : s.created = 0) :
    ∀ n, n < U64 →
      (sampleRun s n).Valid = true ∧
      (sampleRun s n).rate = s.rate ∧
      (sampleRun s n).sample = n ∧
      (sampleRun s n).created = min C (n / s.rate) ∧
      (sampleRun s n).count = (C : Int) - ((min C (n / s.rate) : Nat) : Int) := by
  intro n
  induction n with
  | zero =>
    intro _
    refine ⟨hValid, rfl, hsample, ?_, ?_⟩
    · rw [Nat.zero_div, Nat.min_zero]
      exact hcreated
    · rw [Nat.zero_div, Nat.min_zero, Nat.cast_zero, sub_zero]
      exact hcount
  | succ n ih =>
    intro h
    obtain ⟨iV, iR, iS, iCr, iCo⟩ := ih (Nat.lt_of_succ_lt h)
    have hstep : sampleRun s (n + 1) = (sampleTrace (sampleRun s n) true).1 :=
      rfl
    have hm : (n + 1) % U64 = n + 1 := Nat.mod_eq_of_lt h
    have hcond : ((((sampleRun s n).sample + 1) % U64) % (sampleRun s n).rate
        == 0) = ((n + 1) % s.rate == 0) := by
      rw [iS, iR, hm]
    refine ⟨?_, ?_, ?_, ?_, ?_⟩
    · rw [hstep]
      exact sampleTrace_valid_preserved _ iV true
    · rw [hstep, sampleTrace_rate _ iV true, iR]
    · rw [hstep, sampleTrace_sample _ iV true, iS, hm]
    · rw [hstep, sampleTrace_created _ iV true, hcond, iCr, iCo]
      rw [Nat.succ_div]
      by_cases hdvd : s.rate ∣ (n + 1)
      · have hz : ((n + 1) % s.rate == 0) = true := by
          simpa using Nat.dvd_iff_mod_eq_zero.mp hdvd
        rw [hz, if_pos hdvd]
        by_cases hlt : n / s.rate < C
        · have hmin : min C (n / s.rate) = n / s.rate := by omega
          have hmin' : min C (n / s.rate + 1) = n / s.rate + 1 := by omega
          rw [hmin, hmin']
          have hb : (true && decide ((0 : Int) <
              (C : Int) - ((n / s.rate : Nat) : Int))) = true := by
            simp only [Bool.true_and, decide_eq_true_eq]
            omega
          rw [hb, if_pos rfl]
          exact Nat.mod_eq_of_lt (by omega)
        · have hmin : min C (n / s.rate) = C := by omega
          have hmin' : min C (n / s.rate + 1) = C := by omega
          rw [hmin, hmin']
          have hb : (true && decide ((0 : Int) <
              (C : Int) - ((C : Nat) : Int))) = false := by
            simp
          rw [hb]
          simp
      · have hz : ((n + 1) % s.rate == 0) = false := by
          simpa using fun hx => hdvd (Nat.dvd_iff_mod_eq_zero.mpr hx)
        rw [hz, if_neg hdvd]
        simp only [Bool.false_and, Bool.false_eq_true, if_false, Nat.add_zero]
    · rw [hstep, sampleTrace_count _ iV true, hcond, iCo]
      rw [Nat.succ_div]
      by_cases hdvd : s.rate ∣ (n + 1)
      · have hz : ((n + 1) % s.rate == 0) = true := by
          simpa using Nat.dvd_iff_mod_eq_zero.mp hdvd
        rw [hz, if_pos hdvd]
        by_cases hlt : n / s.rate < C
        · have hmin : min C (n / s.rate) = n / s.rate := by omega
          have hmin' : min C (n / s.rate + 1) = n / s.rate + 1 := by omega
          rw [hmin, hmin']
          have hb : (true && decide ((0 : Int) <
              (C : Int) - ((n / s.rate : Nat) : Int))) = true := by
            simp only [Bool.true_and, decide_eq_true_eq]
            omega
          rw [hb, if_pos rfl]
          push_cast
          ring
        · have hmin : min C (n / s.rate) = C := by omega
          have hmin' : min C (n / s.rate + 1) = C := by omega
          rw [hmin, hmin']
          have hb : (true && decide ((0 : Int) <
              (C : Int) - ((C : Nat) : Int))) = false := by
            simp
          rw [hb]
          simp
      · have hz : ((n + 1) % s.rate == 0) = false := by
          simpa using fun hx => hdvd (Nat.dvd_iff_mod_eq_zero.mpr hx)
        rw [hz, if_neg hdvd]
        simp only [Bool.false_and, Bool.false_eq_true, if_false, Nat.add_zero]

/-- Claim C3, amended: for a valid policy with a finite budget `count = C > 0`
the budget, and with it the `created_` counter, is consumed by at most `C`
creation decisions and its consumption permanently stops once the budget
reaches zero (`created = min C ⌊N / R⌋` after `N` opportunities, never more
than `C`); but the creation decisions themselves are not stopped by the
exhausted budget: they keep firing on every Rth opportunity exactly as for an
unlimited policy.  (A policy with `count = 0` is unlimited — claim C2's
setting.)  Stated below the 64-bit counter wrap. -/
theorem c3_budget_consumption_bounded (s : TraceSetting) (C N : Nat)
    (hValid : s.Valid = true) (hcount : s.count = (C : Int)) (hCU : C < U64)
    (hsample : s.sample = 0) (hcreated : s.created = 0) (hN : N < U64) :
    (sampleRun s N).created = min C (N / s.rate) ∧
    (sampleRun s N).count = (C : Int) - ((min C (N / s.rate) : Nat) : Int) ∧
    (∀ n, n ≤ N → (sampleRun s n).created ≤ C) ∧
    (∀ k, 1 ≤ k → k ≤ N →
      ((sampleTrace (sampleRun s (k - 1)) true).2.1 = true ↔ s.rate ∣ k)) := by
  refine ⟨?_, ?_, ?_, ?_⟩
  · exact (c3_run_state s C hValid hcount hCU hsample hcreated N hN).2.2.2.1
  · exact (c3_run_state s C hValid hcount hCU hsample hcreated N hN).2.2.2.2
  · intro n hn
    rw [(c3_run_state s C hValid hcount hCU hsample hcreated n
      (lt_of_le_of_lt hn hN)).2.2.2.1]
    exact Nat.min_le_left _ _
  · intro k h1 hk
    have hk1 : k - 1 < U64 := by omega
    obtain ⟨iV, iR, iS, _, _⟩ :=
      c3_run_state s C hValid hcount hCU hsample hcreated (k - 1) hk1
    rw [sampleTrace_decision _ iV true, iS, iR]
    have h2 : k - 1 + 1 = k := by omega
    rw [h2, Nat.mod_eq_of_lt (lt_of_le_of_lt hk hN)]
    rw [beq_iff_eq]
    exact Nat.dvd_iff_mod_eq_zero.symm

/-- Claim C3, witness for the amended theorem: the rate-2 budget-2 policy over
7 opportunities consumes its budget at opportunities 2 and 4
(`created = min 2 3 = 2`, remaining budget 0, never more than 2 consumed),
and the decision on opportunity 2 is made exactly because 2 divides it. -/
theorem c3_budget_consumption_bounded_witness :
    (sampleRun budgetTwo 7).created = min 2 (7 / budgetTwo.rate) ∧
    (sampleRun budgetTwo 7).count = (2 : Int) - ((min 2 (7 / budgetTwo.rate) : Nat) : Int) ∧
    (sampleRun budgetTwo 5).created ≤ 2 ∧
    ((sampleTrace (sampleRun budgetTwo 1) true).2.1 = true ↔
      budgetTwo.rate ∣ 2) := by
  have h := c3_budget_consumption_bounded budgetTwo 2 7 (by decide) (by decide)
    (by decide) (by decide) (by decide) (by decide)
  exact ⟨h.1, h.2.1, h.2.2.1 5 (by decide), h.2.2.2 2 (by decide) (by decide)⟩

/-- Claim C10: when a positive creation decision is made but the engine's
trace-handle allocation fails, `SampleTrace` returns no trace object, yet the
budget decrement and the `created_` increment performed under the lock are not
rolled back: the failed attempt permanently consumes one unit of the budget. -/
theorem c10_alloc_failure_consumes_budget (s : TraceSetting)
    (hValid : s.Valid = true) (hdec : ((s.sample + 1) % U64) % s.rate = 0)
    (hcount : 0 < s.count) :
    (sampleTrace s false).2.1 = true ∧
    (sampleTrace s false).2.2 = false ∧
    (sampleTrace s false).1.count = s.count - 1 ∧
    (sampleTrace s false).1.created = (s.created + 1) % U64 := by
  rw [sampleTrace_decision s hValid false, sampleTrace_returned s hValid false,
    sampleTrace_state s hValid false]
  rw [hdec]
  simp [hcount]

/-- Claim C10, witness: the rate-1 budget-1 policy decides to create on its
first opportunity; with the allocation failing, no trace is returned but the
budget drops to 0 and `created_` rises to 1. -/
theorem c10_alloc_failure_consumes_budget_witness :
    (sampleTrace budgetOne false).2.1 = true ∧
    (sampleTrace budgetOne false).2.2 = false ∧
    (sampleTrace budgetOne false).1.count = budgetOne.count - 1 ∧
    (sampleTrace budgetOne false).1.created = (budgetOne.created + 1) % U64 :=
  c10_alloc_failure_consumes_budget budgetOne (by decide) (by decide)
    (by decide)

/-- Claim C4, counterexample: a model update requesting `rate = 0` on a store
whose global policy is enabled is rejected, but the rejected update still
mutates the store's bookkeeping: the model is added to the fallback-model set
(the special-case block runs before validation). -/
theorem c4_rejected_update_modifies_fallback_set :
    demoManager.fallbackUsedModels = [] ∧
    (updateTraceSetting demoManager ("m") setRateZero).2.isSome = true ∧
    (updateTraceSetting demoManager ("m") setRateZero).1.fallbackUsedModels
      = ["m"] := by
  decide

theorem specialCaseStep_noexit (st : TraceManagerState) (name : String)
    (flags : MergedFlags)
    (h : (specialCaseStep st name flags).2 = false) :
    (specialCaseStep st name flags).1.modelSettings = st.modelSettings ∧
    (specialCaseStep st name flags).1.globalSetting = st.globalSetting ∧
    (specialCaseStep st name flags).1.globalDefault = st.globalDefault := by
  by_cases hname : name = ""
  · simp [specialCaseStep, hname]
  · by_cases hall : allSamplingSpecified flags = true
    · simp [specialCaseStep, hname, hall]
    · by_cases hnone : noneSamplingSpecified flags = true
      · simp [specialCaseStep, hname, hall, hnone] at h
      · simp [specialCaseStep, hname, hall, hnone]

theorem updateInternal_error_preserves (st : TraceManagerState) (name : String)
    (ns : NewSetting)
    (herr : (updateTraceSettingInternal st name ns).2.isSome = true) :
    (updateTraceSettingInternal st name ns).1.modelSettings = st.modelSettings ∧
    (updateTraceSettingInternal st name ns).1.globalSetting
      = st.globalSetting := by
  simp only [updateTraceSettingInternal] at herr ⊢
  split at herr
  · simp at herr
  · split at herr
    · rename_i hb hv
      rw [if_neg hb, if_pos hv]
      have hb' : (specialCaseStep st name (mergeFlagsOf st name ns)).2
          = false := by
        simpa using hb
      have hs := specialCaseStep_noexit _ _ _ hb'
      exact ⟨hs.1, hs.2.1⟩
    · split at herr <;> simp at herr

/-- Claim C4, amended: a rejected update (the merged result is invalid without
disabling tracing) returns an error and leaves every policy unchanged — the
global setting and the whole model-policy map are untouched, so every model
still resolves exactly as before — but the store bookkeeping is not left
unchanged: the fallback-model set may be modified by the rejected update,
because the special-case block runs before validation (see the
counterexample). -/
theorem c4_rejected_update_preserves_policies (st : TraceManagerState)
    (name : String) (ns : NewSetting)
    (herr : (updateTraceSettingInternal st name ns).2.isSome = true) :
    (updateTraceSetting st name ns).2.isSome = true ∧
    (updateTraceSetting st name ns).1.modelSettings = st.modelSettings ∧
    (updateTraceSetting st name ns).1.globalSetting = st.globalSetting ∧
    ∀ m, getTraceSetting (updateTraceSetting st name ns).1 m
      = getTraceSetting st m := by
  have hint := updateInternal_error_preserves st name ns herr
  obtain ⟨e, he⟩ : ∃ e, (updateTraceSettingInternal st name ns).2 = some e := by
    cases hx : (updateTraceSettingInternal st name ns).2
    · rw [hx] at herr
      simp at herr
    · exact ⟨_, rfl⟩
  have htop : updateTraceSetting st name ns
      = ((updateTraceSettingInternal st name ns).1, some e) := by
    simp only [updateTraceSetting]
    rw [he]
  rw [htop]
  refine ⟨rfl, hint.1, hint.2, ?_⟩
  intro m
  unfold getTraceSetting
  rw [hint.1, hint.2]

/-- Claim C4, witness: the rejected `rate = 0` model update keeps the model
map and global setting (hence all resolutions) unchanged while returning an
error. -/
theorem c4_rejected_update_preserves_policies_witness :
    (updateTraceSetting demoManager ("m") setRateZero).2.isSome = true ∧
    (updateTraceSetting demoManager ("m") setRateZero).1.modelSettings
      = demoManager.modelSettings ∧
    (updateTraceSetting demoManager ("m") setRateZero).1.globalSetting
      = demoManager.globalSetting ∧
    getTraceSetting (updateTraceSetting demoManager ("m") setRateZero).1 ("m")
      = getTraceSetting demoManager ("m") := by
  have h := c4_rejected_update_preserves_policies demoManager ("m") setRateZero
    (by decide)
  exact ⟨h.1, h.2.1, h.2.2.1, h.2.2.2 ("m")⟩

/-- Claim C5, counterexample: after a partial update (`rate = 5`) followed by
an update clearing that only-specified field, both of which succeed, the
model's policy entry is removed but the model remains recorded in the
fallback-model set — so the claimed invariant (every fallback-set member has
an entry with an unspecified field) fails, and the clear-all update does
leave a record in the store. -/
theorem c5_clear_all_leaves_fallback_record :
    (updateTraceSetting demoManager ("m") setRateFive).2 = none ∧
    (updateTraceSetting (updateTraceSetting demoManager ("m") setRateFive).1
      ("m") clearRateUpdate).2 = none ∧
    lookupSetting (updateTraceSetting
      (updateTraceSetting demoManager ("m") setRateFive).1
      ("m") clearRateUpdate).1.modelSettings ("m") = none ∧
    setMember (updateTraceSetting
      (updateTraceSetting demoManager ("m") setRateFive).1
      ("m") clearRateUpdate).1.fallbackUsedModels ("m") = true ∧
    ¬ storeInvariant (updateTraceSetting
      (updateTraceSetting demoManager ("m") setRateFive).1
      ("m") clearRateUpdate).1 := by
  refine ⟨by decide, by decide, by decide, by decide, ?_⟩
  intro h
  obtain ⟨s, hs, _⟩ := h ("m") (by decide)
  have hn : lookupSetting (updateTraceSetting
      (updateTraceSetting demoManager ("m") setRateFive).1
      ("m") clearRateUpdate).1.modelSettings ("m") = none := by decide
  rw [hn] at hs
  simp at hs

theorem mergedSetting_partial (st : TraceManagerState) (name : String)
    (ns : NewSetting) :
    hasUnspecifiedSamplingField (mergedSettingOf st name ns)
      = !(allSamplingSpecified (mergeFlagsOf st name ns)) := rfl

theorem updateInternal_preserves_weakInv (st : TraceManagerState)
    (name : String) (ns : NewSetting) (h : storeInvariantWeak st)
    (hok : (updateTraceSettingInternal st name ns).2 = none) :
    storeInvariantWeak (updateTraceSettingInternal st name ns).1 := by
  by_cases hname : name = ""
  · subst hname
    have hsp : specialCaseStep st ("") (mergeFlagsOf st ("") ns) = (st, false) := by
      simp [specialCaseStep]
    by_cases hv : (mergedSettingOf st ("") ns).Valid = false ∧
        (mergedSettingOf st ("") ns).level ≠ LEVEL_DISABLED
    · exfalso
      have hx : (updateTraceSettingInternal st ("") ns).2
          = some ("Attempting to set invalid trace setting :"
            ++ (mergedSettingOf st ("") ns).Reason) := by
        simp [updateTraceSettingInternal, hsp, hv]
      rw [hx] at hok
      simp at hok
    · have heq : (updateTraceSettingInternal st ("") ns).1
          = { st with globalSetting := mergedSettingOf st ("") ns } := by
        simp [updateTraceSettingInternal, hsp, hv]
      rw [heq]
      intro m s hm hs
      exact h m s hm hs
  · by_cases hall : allSamplingSpecified (mergeFlagsOf st name ns) = true
    · have hsp : specialCaseStep st name (mergeFlagsOf st name ns)
          = (TraceManagerState.mk st.globalDefault st.globalSetting
            st.modelSettings (setErase st.fallbackUsedModels name), false) := by
        simp [specialCaseStep, hname, hall]
      by_cases hv : (mergedSettingOf st name ns).Valid = false ∧
          (mergedSettingOf st name ns).level ≠ LEVEL_DISABLED
      · exfalso
        have hx : (updateTraceSettingInternal st name ns).2
            = some ("Attempting to set invalid trace setting :"
              ++ (mergedSettingOf st name ns).Reason) := by
          simp [updateTraceSettingInternal, hsp, hv]
        rw [hx] at hok
        simp at hok
      · have heq : (updateTraceSettingInternal st name ns).1
            = TraceManagerState.mk st.globalDefault st.globalSetting
              (insertSetting st.modelSettings name (mergedSettingOf st name ns))
              (setErase st.fallbackUsedModels name) := by
          simp [updateTraceSettingInternal, hsp, hv, hname]
        rw [heq]
        intro m s hm hs
        have hm' := (setMember_erase st.fallbackUsedModels name m).1 hm
        have hs' : lookupSetting st.modelSettings m = some s := by
          rw [← lookupSetting_insert_ne st.modelSettings name m
            (mergedSettingOf st name ns) hm'.2]
          exact hs
        exact h m s hm'.1 hs'
    · by_cases hnone : noneSamplingSpecified (mergeFlagsOf st name ns) = true
      · have hsp : specialCaseStep st name (mergeFlagsOf st name ns)
            = (TraceManagerState.mk st.globalDefault st.globalSetting
              (eraseSetting st.modelSettings name) st.fallbackUsedModels,
              true) := by
          simp [specialCaseStep, hname, hall, hnone]
        have heq : (updateTraceSettingInternal st name ns).1
            = TraceManagerState.mk st.globalDefault st.globalSetting
              (eraseSetting st.modelSettings name) st.fallbackUsedModels := by
          simp [updateTraceSettingInternal, hsp]
        rw [heq]
        intro m s hm hs
        by_cases hmn : m = name
        · subst hmn
          rw [lookupSetting_erase_self] at hs
          simp at hs
        · rw [lookupSetting_erase_ne st.modelSettings name m hmn] at hs
          exact h m s hm hs
      · have hsp : specialCaseStep st name (mergeFlagsOf st name ns)
            = (TraceManagerState.mk st.globalDefault st.globalSetting
              st.modelSettings (setInsert st.fallbackUsedModels name),
              false) := by
          simp [specialCaseStep, hname, hall, hnone]
        by_cases hv : (mergedSettingOf st name ns).Valid = false ∧
            (mergedSettingOf st name ns).level ≠ LEVEL_DISABLED
        · exfalso
          have hx : (updateTraceSettingInternal st name ns).2
              = some ("Attempting to set invalid trace setting :"
                ++ (mergedSettingOf st name ns).Reason) := by
            simp [updateTraceSettingInternal, hsp, hv]
          rw [hx] at hok
          simp at hok
        · have heq : (updateTraceSettingInternal st name ns).1
              = TraceManagerState.mk st.globalDefault st.globalSetting
                (insertSetting st.modelSettings name
                  (mergedSettingOf st name ns))
                (setInsert st.fallbackUsedModels name) := by
            simp [updateTraceSettingInternal, hsp, hv, hname]
          rw [heq]
          intro m s hm hs
          by_cases hmn : m = name
          · subst hmn
            rw [lookupSetting_insert_self] at hs
            have hseq : s = mergedSettingOf st m ns := by
              exact (Option.some.injEq _ _).mp hs.symm
            rw [hseq, mergedSetting_partial]
            simpa using hall
          · have hm' := (setMember_insert st.fallbackUsedModels name m).1 hm
            rcases hm' with hm' | hm'
            · rw [lookupSetting_insert_ne st.modelSettings name m
                (mergedSettingOf st name ns) hmn] at hs
              exact h m s hm' hs
            · exact absurd hm' hmn

theorem propagateFallback_preserves (l : List String) (st : TraceManagerState)
    (h : storeInvariantWeak st) (hok : (propagateFallback st l).2 = none) :
    storeInvariantWeak (propagateFallback st l).1 := by
  induction l generalizing st with
  | nil => exact h
  | cons n rest ih =>
    cases hx : (updateTraceSettingInternal st n NewSetting.default).2 with
    | some e =>
      exfalso
      have hbad : (propagateFallback st (n :: rest)).2 = some e := by
        simp [propagateFallback, hx]
      rw [hbad] at hok
      simp at hok
    | none =>
      have hstep := updateInternal_preserves_weakInv st n NewSetting.default
        h hx
      have heq : propagateFallback st (n :: rest)
          = propagateFallback
            (updateTraceSettingInternal st n NewSetting.default).1 rest := by
        simp [propagateFallback, hx]
      rw [heq] at hok ⊢
      exact ih _ hstep hok

theorem update_preserves_weakInv (st : TraceManagerState) (name : String)
    (ns : NewSetting) (h : storeInvariantWeak st)
    (hok : (updateTraceSetting st name ns).2 = none) :
    storeInvariantWeak (updateTraceSetting st name ns).1 := by
  cases hx : (updateTraceSettingInternal st name ns).2 with
  | some e =>
    exfalso
    have hbad : (updateTraceSetting st name ns).2 = some e := by
      simp [updateTraceSetting, hx]
    rw [hbad] at hok
    simp at hok
  | none =>
    have hstep := updateInternal_preserves_weakInv st name ns h hx
    by_cases hname : name = ""
    · subst hname
      have heq : updateTraceSetting st ("") ns
          = propagateFallback (updateTraceSettingInternal st ("") ns).1
            (updateTraceSettingInternal st ("") ns).1.fallbackUsedModels := by
        simp [updateTraceSetting, hx]
      rw [heq] at hok ⊢
      exact propagateFallback_preserves _ _ hstep hok
    · have heq : updateTraceSetting st name ns
          = ((updateTraceSettingInternal st name ns).1, none) := by
        simp [updateTraceSetting, hx, hname]
      rw [heq] at hok ⊢
      exact hstep

theorem applyUpdates_preserves (us : List (String × NewSetting))
    (st : TraceManagerState) (h : storeInvariantWeak st)
    (hok : (applyUpdates st us).2 = true) :
    storeInvariantWeak (applyUpdates st us).1 := by
  induction us generalizing st with
  | nil => exact h
  | cons u rest ih =>
    obtain ⟨n, ns⟩ := u
    cases hx : (updateTraceSetting st n ns).2 with
    | some e =>
      exfalso
      have hbad : (applyUpdates st ((n, ns) :: rest)).2 = false := by
        simp [applyUpdates, hx]
      rw [hbad] at hok
      simp at hok
    | none =>
      have hstep := update_preserves_weakInv st n ns h hx
      have heq : applyUpdates st ((n, ns) :: rest)
          = applyUpdates (updateTraceSetting st n ns).1 rest := by
        simp [applyUpdates, hx]
      rw [heq] at hok ⊢
      exact ih _ hstep hok

/-- Claim C5, amended: after every sequence of successful `Update` calls
starting from a fresh manager, every model without a model-policy entry
resolves to the global policy verbatim, and every model in the fallback set
has either a model-policy entry with at least one unspecified
sampling-relevant field or no entry at all.  The stronger claimed invariant —
that fallback-set membership implies an entry — fails, because an update that
leaves no sampling-relevant field specified removes the model's entry but
leaves the model recorded in the fallback set (see the counterexample). -/
theorem c5_store_invariant (level : TraceLevel) (rate : Nat) (count : Int)
    (logFrequency : Nat) (filepath : String) (mode : InferenceTraceMode)
    (configMap : TraceConfigMap) (us : List (String × NewSetting))
    (hok : (applyUpdates (initManager level rate count logFrequency filepath
      mode configMap) us).2 = true) :
    storeInvariantWeak (applyUpdates (initManager level rate count
      logFrequency filepath mode configMap) us).1 ∧
    (∀ m, lookupSetting (applyUpdates (initManager level rate count
        logFrequency filepath mode configMap) us).1.modelSettings m = none →
      getTraceSetting (applyUpdates (initManager level rate count logFrequency
        filepath mode configMap) us).1 m
        = (applyUpdates (initManager level rate count logFrequency filepath
          mode configMap) us).1.globalSetting) := by
  constructor
  · refine applyUpdates_preserves us _ ?_ hok
    intro m s hm _
    simp [initManager, setMember] at hm
  · intro m hm
    unfold getTraceSetting
    rw [hm]

/-- Claim C5, witness for the amended theorem: after the successful partial
update and clear-all update of the counterexample, the weakened invariant
holds and the cleared model resolves to the global policy. -/
theorem c5_store_invariant_witness :
    storeInvariantWeak (applyUpdates (initManager LEVEL_TIMESTAMPS 1 0 0
      "trace.json" InferenceTraceMode.triton [])
      [("m", setRateFive), ("m", clearRateUpdate)]).1 ∧
    getTraceSetting (applyUpdates (initManager LEVEL_TIMESTAMPS 1 0 0
      "trace.json" InferenceTraceMode.triton [])
      [("m", setRateFive), ("m", clearRateUpdate)]).1 ("m")
      = (applyUpdates (initManager LEVEL_TIMESTAMPS 1 0 0 "trace.json"
        InferenceTraceMode.triton [])
        [("m", setRateFive), ("m", clearRateUpdate)]).1.globalSetting := by
  have h := c5_store_invariant LEVEL_TIMESTAMPS 1 0 0 "trace.json"
    InferenceTraceMode.triton [] [("m", setRateFive), ("m", clearRateUpdate)]
    (by decide)
  exact ⟨h.1, h.2 ("m") (by decide)⟩

/-- Claim C6, counterexample: an unlimited-count (`count = 0`) policy with
`log_frequency = 0` collects its first trace and `WriteTrace` immediately
flushes — although neither claimed trigger holds (the finite budget is never
consumed, and `logFrequency > 0` fails) — and the flush goes to a new indexed
file (`to_index_file = true`), not to the main continuous file the claim
names for the count trigger. -/
theorem c6_flush_fires_for_unlimited_policy :
    unlimitedRateOne.count = 0 ∧
    unlimitedRateOne.logFrequency = 0 ∧
    (sampleTrace unlimitedRateOne true).2.2 = true ∧
    (writeTrace (sampleTrace unlimitedRateOne true).1 ["\x7b\x7d"]).2
      = some ("\x7b\x7d", true) := by
  decide

set_option maxRecDepth 8000

/-- Claim C6, amended: at the end of `WriteTrace` a flush fires exactly when
either `count_ = 0` (whether the budget was consumed or the policy was
unlimited from the start) and the incremented collected counter equals the
sample counter, or `log_frequency > 0` and the incremented in-stream counter
reaches it; every flush — both triggers — writes the swapped batch to a new
indexed file (`to_index_file = true`), never to the main continuous file.
With `logFrequency = 2` and a nonzero count, the first collected trace is
buffered and the second flush writes both traces' fragments, comma-joined, to
one indexed file. -/
theorem c6_flush_characterization (s : TraceSetting) (streams : List String) :
    ((writeTrace s streams).2.isSome = true ↔
      ((s.count = 0 ∧ (s.collected + 1) % U64 = s.sample) ∨
        (s.logFrequency ≠ 0 ∧ s.logFrequency ≤ (s.sampleInStream + 1) % U64))) ∧
    (∀ content toIdx, (writeTrace s streams).2 = some (content, toIdx) →
      toIdx = true) ∧
    (∀ (t : TraceSetting) (f1 f2 : String), t.logFrequency = 2 →
      t.sampleInStream = 0 → t.traceStream = "" → t.count ≠ 0 →
      (writeTrace t [f1]).2 = none ∧
      (writeTrace (writeTrace t [f1]).1 [f2]).2
        = some (f1 ++ "," ++ f2, true)) := by
  refine ⟨?_, ?_, ?_⟩
  · simp only [writeTrace]
    split <;> split <;> simp_all
  · intro content toIdx hsome
    simp only [writeTrace] at hsome
    split at hsome <;> split at hsome <;> simp at hsome <;> exact hsome.2
  · intro t f1 f2 hlf hsis hts hcount
    constructor
    · simp [writeTrace, joinComma, U64, hlf, hsis, hts, hcount]
    · simp [writeTrace, joinComma, U64, hlf, hsis, hts, hcount]

/-- Claim C6, witness for the amended theorem: with the `logFrequency = 2`
finite-count setting, collecting batch `a` does not flush and collecting
batch `b` flushes `a,b` to an indexed file. -/
theorem c6_flush_characterization_witness :
    (writeTrace logFreqTwoSetting [("a")]).2 = none ∧
    (writeTrace (writeTrace logFreqTwoSetting [("a")]).1 [("b")]).2
      = some ("a" ++ "," ++ "b", true) :=
  (c6_flush_characterization logFreqTwoSetting []).2.2 logFreqTwoSetting
    ("a") ("b") rfl rfl rfl (by decide)

/-- Claim C7, counterexample: a truncated BYTES tensor event leaves a
partially serialized fragment in the session buffer; when that trace is
collected under `log_frequency = 1`, `WriteTrace` flushes the batch and
`SaveTraces` writes an indexed file whose content is not a balanced JSON
array (the fragment's braces and opening quote are never closed). -/
theorem c7_truncated_event_unbalanced_file :
    corruptedFile.indexFiles.length = 1 ∧
    balancedJson (corruptedFile.indexFiles.getD 0 ("")) = false := by
  decide

theorem balancedJson_eq (s : String) :
    balancedJson s = true ↔ balRun balInit s = balInit := by
  simp [balancedJson]

theorem balRun_append (st : BalState) (a b : String) :
    balRun st (a ++ b) = balRun (balRun st a) b := by
  simp [balRun, String.data_append, List.foldl_append]

theorem balStep_ok_mono (st : BalState) (c : Char)
    (h : (balStep st c).ok = true) : st.ok = true := by
  unfold balStep at h
  split_ifs at h <;> simp_all

theorem balList_ok_mono (l : List Char) (st : BalState)
    (h : (balList st l).ok = true) : st.ok = true := by
  induction l generalizing st with
  | nil => exact h
  | cons c rest ih => exact balStep_ok_mono st c (ih (balStep st c) h)

theorem balStep_shiftSquare (st : BalState) (c : Char)
    (h : (balStep st c).ok = true) :
    balStep (shiftSquare st) c = shiftSquare (balStep st c) := by
  unfold balStep at h ⊢
  unfold shiftSquare
  split_ifs at h ⊢ <;> try rfl
  all_goals simp_all
  all_goals omega

theorem balList_shiftSquare (l : List Char) (st : BalState)
    (h : (balList st l).ok = true) :
    balList (shiftSquare st) l = shiftSquare (balList st l) := by
  induction l generalizing st with
  | nil => rfl
  | cons c rest ih =>
    have h1 : (balStep st c).ok = true := balList_ok_mono rest _ h
    show balList (balStep (shiftSquare st) c) rest = _
    rw [balStep_shiftSquare st c h1]
    exact ih (balStep st c) h

theorem balanced_append (a b : String) (ha : balancedJson a = true)
    (hb : balancedJson b = true) : balancedJson (a ++ b) = true := by
  rw [balancedJson_eq] at ha hb ⊢
  rw [balRun_append, ha, hb]

theorem balanced_wrap (B : String) (h : balancedJson B = true) :
    balancedJson ("[" ++ B ++ "]") = true := by
  rw [balancedJson_eq] at h ⊢
  rw [balRun_append, balRun_append]
  have h1 : balRun balInit ("[") = shiftSquare balInit := by decide
  rw [h1]
  have hok : (balList balInit B.data).ok = true := by
    have hx : balList balInit B.data = balInit := h
    rw [hx]
    rfl
  have h2 := balList_shiftSquare B.data balInit hok
  have h3 : balRun (shiftSquare balInit) B = shiftSquare balInit := by
    show balList (shiftSquare balInit) B.data = _
    rw [h2]
    show shiftSquare (balRun balInit B) = _
    rw [h]
  rw [h3]
  decide

theorem saveTraces_fileInv (f : TraceFileState) (c : String) (b : Bool)
    (hf : fileInv f) (hc : balancedJson c = true) :
    fileInv (saveTraces f c b) := by
  obtain ⟨hidx, hfw, hmain⟩ := hf
  unfold saveTraces
  by_cases hb : b = true
  · rw [if_pos hb]
    refine ⟨?_, hfw, hmain⟩
    intro g hg
    rw [List.mem_append] at hg
    rcases hg with hg | hg
    · exact hidx g hg
    · rw [List.mem_singleton] at hg
      rw [hg]
      exact balanced_wrap c hc
  · rw [if_neg hb]
    by_cases hfw2 : f.firstWrite = true
    · rw [if_pos hfw2]
      refine ⟨hidx, ?_, ?_⟩
      · intro h1
        simp at h1
      · intro _
        exact ⟨c, rfl, hc⟩
    · rw [if_neg hfw2]
      refine ⟨hidx, ?_, ?_⟩
      · intro h1
        exact absurd h1 hfw2
      · intro _
        obtain ⟨B, hB, hBbal⟩ := hmain (by simpa using hfw2)
        refine ⟨B ++ "," ++ c, ?_, ?_⟩
        · show f.mainContent ++ "," ++ c = _
          rw [hB]
          rw [String.ext_iff]
          simp [String.data_append]
        · exact balanced_append _ c
            (balanced_append B (",") hBbal (by decide)) hc

theorem foldl_saveTraces_fileInv (batches : List (String × Bool))
    (f : TraceFileState) (hf : fileInv f)
    (h : ∀ b ∈ batches, balancedJson b.1 = true) :
    fileInv (batches.foldl (fun acc b => saveTraces acc b.1 b.2) f) := by
  induction batches generalizing f with
  | nil => exact hf
  | cons b rest ih =>
    exact ih _ (saveTraces_fileInv f b.1 b.2 hf (h b (by simp)))
      (fun x hx => h x (by simp [hx]))

/-- Claim C7, amended: every local-mode output file has balanced brackets
provided every flushed batch does — the main continuous file after close is
`[` batch `,` ... `]` and every indexed file is `[` batch `]`, so both are
balanced whenever the batches are.  The unconditional claim fails because an
aborted tensor serialization leaves an unbalanced fragment in a batch (see the
counterexample). -/
theorem c7_files_balanced_of_batches_balanced (batches : List (String × Bool))
    (h : ∀ b ∈ batches, balancedJson b.1 = true) :
    (∀ g ∈ (batches.foldl (fun acc b => saveTraces acc b.1 b.2)
      initTraceFile).indexFiles, balancedJson g = true) ∧
    (∀ m, closeTraceFile (batches.foldl (fun acc b => saveTraces acc b.1 b.2)
      initTraceFile) = some m → balancedJson m = true) := by
  have hinit : fileInv initTraceFile := by
    refine ⟨?_, fun _ => rfl, ?_⟩
    · intro g hg
      simp [initTraceFile] at hg
    · intro h1
      simp [initTraceFile] at h1
  obtain ⟨hidx, hfw, hmain⟩ :=
    foldl_saveTraces_fileInv batches initTraceFile hinit h
  refine ⟨hidx, ?_⟩
  intro m hm
  unfold closeTraceFile at hm
  split at hm
  · simp at hm
  · rename_i hf
    obtain ⟨B, hB, hBbal⟩ := hmain (by simpa using hf)
    have hmeq : m = "[" ++ B ++ "]" := by
      have hx := (Option.some.injEq _ _).mp hm
      rw [← hx, hB]
    rw [hmeq]
    exact balanced_wrap B hBbal

/-- Claim C7, witness for the amended theorem: a single balanced batch written
to an indexed file yields a balanced file. -/
theorem c7_files_balanced_of_batches_balanced_witness :
    balancedJson ((([(("\x7b\x7d" : String), true)].foldl
      (fun acc b => saveTraces acc b.1 b.2) initTraceFile)).indexFiles.getD 0
      ("")) = true := by
  have h := c7_files_balanced_of_batches_balanced [("\x7b\x7d", true)] (by
    intro b hb
    rw [List.mem_singleton] at hb
    subst hb
    decide)
  exact h.1 _ (by decide)

/-- Claim C8, counterexample: a tensor event with the INVALID datatype hits an
empty session buffer; the claim says the buffer is exactly the same after the
callback, but the callback leaves the already-written fragment header behind
(the buffer for id 0 goes from absent to present). -/
theorem c8_invalid_dtype_modifies_buffer :
    streamsLookup ([] : Streams) invalidDtypeEvent.id = none ∧
    (streamsLookup (traceTensorActivity [] invalidDtypeEvent
      InferenceTraceMode.triton) invalidDtypeEvent.id).isSome = true := by
  decide

/-- Claim C8, amended: a tensor event with the INVALID datatype aborts
serialization at the datatype switch — no data, shape or dtype text is
emitted — but the buffer for that sub-trace id is modified, not left exactly
as before: the separator comma (for an existing stream) and the fragment
header (id, activity, tensor name, opening of the data field), written before
the switch, remain in the stream. -/
theorem c8_invalid_dtype_partial_header (streams : Streams) (ev : TensorEvent)
    (hact : supportedTensorActivity ev.activity = true)
    (hdt : ev.datatype = DataType.invalid) :
    traceTensorActivity streams ev InferenceTraceMode.triton
      = streamsInsert streams ev.id (abortedTensorFragment streams ev) ∧
    abortedTensorFragment streams ev
      = (match streamsLookup streams ev.id with
         | none => ""
         | some s => s ++ ",")
        ++ tensorFragmentHeader ev.id ev.activity ev.name := by
  constructor
  · simp [traceTensorActivity, hact, hdt, serializeData, abortedTensorFragment]
  · simp [abortedTensorFragment, hdt, serializeData]

/-- Claim C8, witness for the amended theorem: the INVALID-dtype event on an
empty session leaves exactly the fragment header in the buffer for id 0. -/
theorem c8_invalid_dtype_partial_header_witness :
    traceTensorActivity [] invalidDtypeEvent InferenceTraceMode.triton
      = streamsInsert [] invalidDtypeEvent.id
        (abortedTensorFragment [] invalidDtypeEvent) ∧
    abortedTensorFragment [] invalidDtypeEvent
      = (match streamsLookup [] invalidDtypeEvent.id with
         | none => ""
         | some s => s ++ ",")
        ++ tensorFragmentHeader invalidDtypeEvent.id invalidDtypeEvent.activity
          invalidDtypeEvent.name :=
  c8_invalid_dtype_partial_header [] invalidDtypeEvent (by decide) rfl

/-- Claim C9, counterexample: a BYTES tensor event whose 4-byte length prefix
would read past `byte_size` is claimed to be dropped with no fragment in the
buffer, but the callback leaves the partially serialized fragment (the header
written before the abort) in the session buffer. -/
theorem c9_truncated_bytes_leaves_fragment :
    (serializeData truncatedTensorEvent.datatype truncatedTensorEvent.buffer
      (elementCount truncatedTensorEvent.shape)).2 = false ∧
    streamsLookup ([] : Streams) truncatedTensorEvent.id = none ∧
    (streamsLookup (traceTensorActivity [] truncatedTensorEvent
      InferenceTraceMode.triton) truncatedTensorEvent.id).isSome = true := by
  decide

/-- Claim C9, amended: a truncated BYTES payload aborts serialization with an
early return, dropping the remainder of the event — but the partially
serialized fragment (header plus any data text emitted before the abort)
remains in the session buffer for that id; the session does keep accepting
subsequent events, which are appended after a comma separator. -/
theorem c9_truncated_bytes_partial_and_continues (streams : Streams)
    (ev : TensorEvent) (ev2 : ActivityEvent)
    (hact : supportedTensorActivity ev.activity = true)
    (hdt : ev.datatype = DataType.bytes)
    (htrunc : (serializeData ev.datatype ev.buffer
      (elementCount ev.shape)).2 = false)
    (hid : ev2.id = ev.id) (hact2 : ev2.activity ≠ Activity.requestStart) :
    traceTensorActivity streams ev InferenceTraceMode.triton
      = streamsInsert streams ev.id (abortedTensorFragment streams ev) ∧
    traceActivity (traceTensorActivity streams ev InferenceTraceMode.triton)
      ev2 InferenceTraceMode.triton
      = streamsInsert streams ev.id (abortedTensorFragment streams ev ++ ","
        ++ timestampFragment ev2.id (activityString ev2.activity)
          ev2.timestampNs) := by
  have h1 : traceTensorActivity streams ev InferenceTraceMode.triton
      = streamsInsert streams ev.id (abortedTensorFragment streams ev) := by
    simp [traceTensorActivity, hact, htrunc, abortedTensorFragment]
  refine ⟨h1, ?_⟩
  rw [h1]
  simp only [traceActivity, if_pos rfl]
  rw [hid, streamsLookup_insert_self]
  rw [if_neg hact2]
  rw [streamsInsert_collapse]
  simp

/-- Claim C9, witness for the amended theorem: the truncated BYTES event on an
empty session leaves the partial fragment for id 0, and a following
queue-start activity for the same id is appended after a comma. -/
theorem c9_truncated_bytes_partial_and_continues_witness :
    traceTensorActivity [] truncatedTensorEvent InferenceTraceMode.triton
      = streamsInsert [] truncatedTensorEvent.id
        (abortedTensorFragment [] truncatedTensorEvent) ∧
    traceActivity (traceTensorActivity [] truncatedTensorEvent
      InferenceTraceMode.triton) demoActivityEvent InferenceTraceMode.triton
      = streamsInsert [] truncatedTensorEvent.id
        (abortedTensorFragment [] truncatedTensorEvent ++ ","
          ++ timestampFragment demoActivityEvent.id
            (activityString demoActivityEvent.activity)
            demoActivityEvent.timestampNs) :=
  c9_truncated_bytes_partial_and_continues [] truncatedTensorEvent
    demoActivityEvent (by decide) rfl (by decide) rfl (by decide)

end Tracer
